import Mathlib

/-!
Shallow embedding of `Fresnel_equation_plot.py` over the real numbers,
together with proofs of the spec's testable properties.

The script computes, for fixed refractive indices `n_1 = 1.0` (air) and
`n_2 = 1.5` (glass), the Fresnel quantities alpha, beta, the reflection and
transmission coefficients, and the reflectance/transmittance, over a grid of
100 sample angles `np.radians(np.linspace(0, 100, 100))`, plus Brewster's
angle and the x-axis tick list used by the plot.  NumPy's float operations
are modelled by exact real arithmetic: `np.sqrt` by `Real.sqrt`, `np.sin`
by `Real.sin`, and so on; `np.round(x, 3)` by rounding `x * 1000` to the
nearest integer.
-/

/-- `n_1 = 1.0`, refractive index of air (line 36 of the script). -/
def n_1 : ℝ := 1.0

/-- `n_2 = 1.5`, refractive index of glass (line 37 of the script). -/
def n_2 : ℝ := 1.5

/-- The argument of the square root on line 46 of the script:
`1-((n_1/n_2)*np.sin(theta_i))**2`. -/
noncomputable def radicand (theta_i : ℝ) : ℝ :=
  1 - ((n_1 / n_2) * Real.sin theta_i) ^ 2

/-- `alphaAndBeta` (lines 40-48):
`alpha = (np.sqrt(1-((n_1/n_2)*np.sin(theta_i))**2))/(np.cos(theta_i))`,
`beta = n_2/n_1`. -/
noncomputable def alphaAndBeta (theta_i : ℝ) : ℝ × ℝ :=
  (Real.sqrt (radicand theta_i) / Real.cos theta_i, n_2 / n_1)

/-- `reflectionAndTransmissionCoefficient` (lines 51-62):
`reflection_coefficient = (alpha-beta)/(alpha+beta)`,
`transmission_coefficient = 2/(alpha+beta)`. -/
noncomputable def reflectionAndTransmissionCoefficient (theta_i : ℝ) : ℝ × ℝ :=
  (((alphaAndBeta theta_i).1 - (alphaAndBeta theta_i).2) /
      ((alphaAndBeta theta_i).1 + (alphaAndBeta theta_i).2),
    2 / ((alphaAndBeta theta_i).1 + (alphaAndBeta theta_i).2))

/-- `reflectanceAndTransmittance` (lines 65-76):
`reflectance = ((alpha-beta)/(alpha+beta))**2`,
`transmittance = alpha*beta*((2/(alpha+beta))**2)`. -/
noncomputable def reflectanceAndTransmittance (theta_i : ℝ) : ℝ × ℝ :=
  ((((alphaAndBeta theta_i).1 - (alphaAndBeta theta_i).2) /
      ((alphaAndBeta theta_i).1 + (alphaAndBeta theta_i).2)) ^ 2,
    (alphaAndBeta theta_i).1 * (alphaAndBeta theta_i).2 *
      ((2 / ((alphaAndBeta theta_i).1 + (alphaAndBeta theta_i).2)) ^ 2))

/-- `np.radians`: degrees to radians, `d * π / 180`. -/
noncomputable def radians (d : ℝ) : ℝ :=
  d * (Real.pi / 180)

/-- `np.degrees`: radians to degrees, `x * 180 / π`. -/
noncomputable def degrees (x : ℝ) : ℝ :=
  x * (180 / Real.pi)

/-- `np.linspace(a, b, num)` with the default inclusive endpoint: the `i`-th
sample is `a + (b - a) * i / (num - 1)`. -/
noncomputable def linspace (a b : ℝ) (num : ℕ) : List ℝ :=
  (List.range num).map (fun i : ℕ => a + (b - a) * (i : ℝ) / ((num : ℝ) - 1))

/-- `theta_range = np.radians(np.linspace(0, 100, 100))` (line 80). -/
noncomputable def theta_range : List ℝ :=
  (linspace 0 100 100).map radians

/-- Line 84: the reflection coefficient sampled over the grid. -/
noncomputable def reflection_coefficient : List ℝ :=
  theta_range.map (fun theta => (reflectionAndTransmissionCoefficient theta).1)

/-- Line 86: the transmission coefficient sampled over the grid. -/
noncomputable def transmission_coefficient : List ℝ :=
  theta_range.map (fun theta => (reflectionAndTransmissionCoefficient theta).2)

/-- Line 91: the reflectance sampled over the grid. -/
noncomputable def reflectance : List ℝ :=
  theta_range.map (fun theta => (reflectanceAndTransmittance theta).1)

/-- Line 93: the transmittance sampled over the grid. -/
noncomputable def transmittance : List ℝ :=
  theta_range.map (fun theta => (reflectanceAndTransmittance theta).2)

/-- `theta_brewster = np.degrees(np.arctan(n_2/n_1))` (line 97). -/
noncomputable def theta_brewster : ℝ :=
  degrees (Real.arctan (n_2 / n_1))

/-- `np.round(x, 3)`: round to three decimal places. -/
noncomputable def roundTo3 (x : ℝ) : ℝ :=
  (round (x * 1000) : ℤ) / 1000

/-- `np.arange(0, 90, 10)`: the multiples of ten below ninety. -/
noncomputable def arange_0_90_10 : List ℝ :=
  (List.range 9).map (fun k : ℕ => 10 * (k : ℝ))

/-- `np.setdiff1d(a, b)`: the sorted unique values of `a` that are not
in `b`. -/
noncomputable def setdiff1d (a b : List ℝ) : List ℝ :=
  ((a.filter (fun x => decide (x ∉ b))).dedup).insertionSort (· ≤ ·)

/-- `ticks_x` (lines 100-101): multiples of ten plus the rounded Brewster
angle, with `50` and `60` removed. -/
noncomputable def ticks_x : List ℝ :=
  setdiff1d (arange_0_90_10 ++ [roundTo3 theta_brewster]) [50, 60]

/-! ### Basic evaluation facts -/

/-- `beta = n_2/n_1 = 1.5` for every angle. -/
lemma beta_val (theta : ℝ) : (alphaAndBeta theta).2 = 1.5 := by
  simp only [alphaAndBeta, n_1, n_2]
  norm_num

/-- At normal incidence the radicand is `1`. -/
lemma radicand_zero : radicand 0 = 1 := by
  simp [radicand]

/-- At normal incidence `alpha = sqrt 1 / cos 0 = 1`. -/
lemma alpha_zero : (alphaAndBeta 0).1 = 1 := by
  simp [alphaAndBeta, radicand_zero, Real.sqrt_one, Real.cos_zero]

/-! ### Spec-side formulas (transcribed from the specification text, for the
refinement claim): `alpha = sqrt(1 − ((n₁/n₂)·sin θᵢ)²) / cos θᵢ`,
`beta = n₂/n₁`, `r = (alpha − beta)/(alpha + beta)`, `t = 2/(alpha + beta)`,
`R = r²`, `T = alpha·beta·t²`, with `n₁ = 1.0` and `n₂ = 1.5`. -/

/-- Spec formula for alpha. -/
noncomputable def spec_alpha (theta_i : ℝ) : ℝ :=
  Real.sqrt (1 - (((1.0 : ℝ) / 1.5) * Real.sin theta_i) ^ 2) / Real.cos theta_i

/-- Spec formula for beta. -/
noncomputable def spec_beta : ℝ :=
  (1.5 : ℝ) / 1.0

/-- Spec formula for the reflection coefficient. -/
noncomputable def spec_r (theta_i : ℝ) : ℝ :=
  (spec_alpha theta_i - spec_beta) / (spec_alpha theta_i + spec_beta)

/-- Spec formula for the transmission coefficient. -/
noncomputable def spec_t (theta_i : ℝ) : ℝ :=
  2 / (spec_alpha theta_i + spec_beta)

/-- Spec formula for the reflectance. -/
noncomputable def spec_R (theta_i : ℝ) : ℝ :=
  (spec_r theta_i) ^ 2

/-- Spec formula for the transmittance. -/
noncomputable def spec_T (theta_i : ℝ) : ℝ :=
  spec_alpha theta_i * spec_beta * (spec_t theta_i) ^ 2

/-- C1: for every angle of incidence at which `cos theta_i` is nonzero and the
radicand is nonnegative, with `n1 = 1.0` and `n2 = 1.5`, the evaluator computes
exactly the spec's formulas for alpha, beta, r, t, R and T. -/
theorem C1_evaluator_matches_spec (theta_i : ℝ) (h1 : Real.cos theta_i ≠ 0)
    (h2 : 0 ≤ radicand theta_i) :
    (alphaAndBeta theta_i).1 = spec_alpha theta_i ∧
    (alphaAndBeta theta_i).2 = spec_beta ∧
    (reflectionAndTransmissionCoefficient theta_i).1 = spec_r theta_i ∧
    (reflectionAndTransmissionCoefficient theta_i).2 = spec_t theta_i ∧
    (reflectanceAndTransmittance theta_i).1 = spec_R theta_i ∧
    (reflectanceAndTransmittance theta_i).2 = spec_T theta_i := by
  have ha : (alphaAndBeta theta_i).1 = spec_alpha theta_i := by
    simp [alphaAndBeta, radicand, spec_alpha, n_1, n_2]
  have hb : (alphaAndBeta theta_i).2 = spec_beta := by
    simp [alphaAndBeta, spec_beta, n_1, n_2]
  refine ⟨ha, hb, ?_, ?_, ?_, ?_⟩ <;>
    simp [reflectionAndTransmissionCoefficient, reflectanceAndTransmittance,
      spec_r, spec_t, spec_R, spec_T, ha, hb]

/-- Witness for C1 at `theta_i = 0`. -/
theorem C1_witness :
    Real.cos 0 ≠ 0 ∧ 0 ≤ radicand 0 ∧ (alphaAndBeta 0).1 = spec_alpha 0 := by
  have h1 : Real.cos 0 ≠ 0 := by norm_num
  have h2 : (0 : ℝ) ≤ radicand 0 := by rw [radicand_zero]; norm_num
  exact ⟨h1, h2, (C1_evaluator_matches_spec 0 h1 h2).1⟩

/-- C2: wherever alpha is well defined (`cos theta_i` nonzero, radicand
nonnegative) and `alpha + beta` is nonzero, the reflectance and transmittance
sum to exactly one. -/
theorem C2_energy_conservation (theta_i : ℝ) (h1 : Real.cos theta_i ≠ 0)
    (h2 : 0 ≤ radicand theta_i)
    (h3 : (alphaAndBeta theta_i).1 + (alphaAndBeta theta_i).2 ≠ 0) :
    (reflectanceAndTransmittance theta_i).1 +
      (reflectanceAndTransmittance theta_i).2 = 1 := by
  simp only [reflectanceAndTransmittance]
  field_simp
  ring

/-- Witness for C2 at `theta_i = 0`. -/
theorem C2_witness :
    Real.cos 0 ≠ 0 ∧ 0 ≤ radicand 0 ∧
      (alphaAndBeta 0).1 + (alphaAndBeta 0).2 ≠ 0 ∧
      (reflectanceAndTransmittance 0).1 + (reflectanceAndTransmittance 0).2 = 1 := by
  have h1 : Real.cos 0 ≠ 0 := by norm_num
  have h2 : (0 : ℝ) ≤ radicand 0 := by rw [radicand_zero]; norm_num
  have h3 : (alphaAndBeta 0).1 + (alphaAndBeta 0).2 ≠ 0 := by
    rw [alpha_zero, beta_val]; norm_num
  exact ⟨h1, h2, h3, C2_energy_conservation 0 h1 h2 h3⟩

/-- C3: for every `theta_i` in `(0, π/2)`, the reflectance equals the square
of the reflection coefficient, exactly. -/
theorem C3_reflectance_eq_sq (theta_i : ℝ) (h1 : 0 < theta_i)
    (h2 : theta_i < Real.pi / 2) :
    (reflectanceAndTransmittance theta_i).1 =
      ((reflectionAndTransmissionCoefficient theta_i).1) ^ 2 := rfl

/-- Witness for C3 at `theta_i = 1`. -/
theorem C3_witness :
    (0 : ℝ) < 1 ∧ (1 : ℝ) < Real.pi / 2 ∧
      (reflectanceAndTransmittance 1).1 =
        ((reflectionAndTransmissionCoefficient 1).1) ^ 2 := by
  have h1 : (0 : ℝ) < 1 := by norm_num
  have h2 : (1 : ℝ) < Real.pi / 2 := by nlinarith [Real.pi_gt_three]
  exact ⟨h1, h2, C3_reflectance_eq_sq 1 h1 h2⟩

/-- C5 fails on the code: at `theta_i = 0` the evaluator returns
`alpha = sqrt(1)/cos(0) = 1`, not `1.5`, hence also `r = -0.2 ≠ 0`,
`t = 0.8 ≠ 2/3` and `R = 0.04 ≠ 0`. -/
theorem C5_counterexample :
    ¬ ((alphaAndBeta 0).1 = 1.5 ∧ (alphaAndBeta 0).2 = 1.5 ∧
      (reflectionAndTransmissionCoefficient 0).1 = 0 ∧
      (reflectionAndTransmissionCoefficient 0).2 = 2 / 3 ∧
      (reflectanceAndTransmittance 0).1 = 0) := by
  intro h
  have h1 := h.1
  rw [alpha_zero] at h1
  norm_num at h1

/-- C5 amended: given `n1 = 1.0`, `n2 = 1.5` and `theta_i = 0`, the evaluator
returns `alpha = 1`, `beta = 1.5`, `r = -0.2`, `t = 0.8`, `R = 0.04` and
`T = 0.96`. -/
theorem C5_amended_normal_incidence :
    (alphaAndBeta 0).1 = 1 ∧ (alphaAndBeta 0).2 = 1.5 ∧
    (reflectionAndTransmissionCoefficient 0).1 = -0.2 ∧
    (reflectionAndTransmissionCoefficient 0).2 = 0.8 ∧
    (reflectanceAndTransmittance 0).1 = 0.04 ∧
    (reflectanceAndTransmittance 0).2 = 0.96 := by
  refine ⟨alpha_zero, beta_val 0, ?_, ?_, ?_, ?_⟩ <;>
    simp only [reflectionAndTransmissionCoefficient, reflectanceAndTransmittance,
      alpha_zero, beta_val] <;> norm_num

/-- C7: for the fixed `n1 = 1.0 < n2 = 1.5`, the radicand is nonnegative for
every angle in `[0, π/2]` (indeed it is at least `5/9` for every real angle). -/
theorem C7_radicand_nonneg (theta_i : ℝ) (h1 : 0 ≤ theta_i)
    (h2 : theta_i ≤ Real.pi / 2) : 0 ≤ radicand theta_i := by
  have hs1 := Real.neg_one_le_sin theta_i
  have hs2 := Real.sin_le_one theta_i
  simp only [radicand, n_1, n_2]
  nlinarith [mul_nonneg (by linarith : (0:ℝ) ≤ 1 - Real.sin theta_i)
    (by linarith : (0:ℝ) ≤ 1 + Real.sin theta_i)]

/-- Witness for C7 at `theta_i = 0`. -/
theorem C7_witness : (0 : ℝ) ≤ 0 ∧ (0 : ℝ) ≤ Real.pi / 2 ∧ 0 ≤ radicand 0 := by
  have h1 : (0 : ℝ) ≤ 0 := le_refl 0
  have h2 : (0 : ℝ) ≤ Real.pi / 2 := by positivity
  exact ⟨h1, h2, C7_radicand_nonneg 0 h1 h2⟩

/-! ### Brewster's angle: `alpha = beta` at `arctan(n_2/n_1)` -/

/-- At Brewster's angle `arctan(3/2)` the evaluator's alpha equals `3/2`. -/
lemma alpha_brewster : (alphaAndBeta (Real.arctan (3 / 2))).1 = 3 / 2 := by
  simp only [alphaAndBeta, radicand, n_1, n_2]
  rw [Real.sin_arctan, Real.cos_arctan]
  have h0 : (0:ℝ) < 1 + (3/2:ℝ)^2 := by norm_num
  have hs : Real.sqrt (1 + (3/2:ℝ)^2) ^ 2 = 1 + (3/2:ℝ)^2 := Real.sq_sqrt h0.le
  have harg : 1 - ((1.0:ℝ)/1.5 * ((3/2) / Real.sqrt (1 + (3/2:ℝ)^2))) ^ 2 =
      1 - 1 / Real.sqrt (1 + (3/2:ℝ)^2) ^ 2 := by
    rw [mul_pow, div_pow]
    ring_nf
  rw [harg, hs]
  rw [show (1:ℝ) - 1/(1 + (3/2:ℝ)^2) = 9/13 by norm_num]
  rw [div_div_eq_mul_div, div_one]
  rw [← Real.sqrt_mul (by norm_num : (0:ℝ) ≤ 9/13)]
  rw [show (9:ℝ)/13 * (1 + (3/2:ℝ)^2) = (3/2:ℝ)^2 by norm_num]
  exact Real.sqrt_sq (by norm_num)

/-- C4: at Brewster's angle `arctan(n2/n1)` the reflection coefficient and the
reflectance are both exactly zero over real arithmetic (hence certainly within
`1e-9`). -/
theorem C4_brewster_zero :
    (reflectionAndTransmissionCoefficient (Real.arctan (n_2 / n_1))).1 = 0 ∧
    (reflectanceAndTransmittance (Real.arctan (n_2 / n_1))).1 = 0 := by
  have hn : n_2 / n_1 = (3:ℝ)/2 := by
    rw [n_1, n_2]
    norm_num
  rw [hn]
  constructor <;>
    simp only [reflectionAndTransmissionCoefficient, reflectanceAndTransmittance,
      alpha_brewster, beta_val] <;> norm_num

/-! ### Taylor-style bounds on `arctan`, used to pin down Brewster's angle in
degrees. Both follow from monotonicity: the stated difference has nonnegative
derivative `y^6/(1+y^2)` (resp. `y^8/(1+y^2)`) and vanishes at zero. -/

/-- Degree-5 upper bound on `arctan` for nonnegative arguments. -/
lemma arctan_le_poly5 (x : ℝ) (hx : 0 ≤ x) :
    Real.arctan x ≤ x - x^3/3 + x^5/5 := by
  have hD : ∀ y : ℝ, HasDerivAt (fun y : ℝ => y - y^3/3 + y^5/5 - Real.arctan y)
      (1 - 3*y^2/3 + 5*y^4/5 - 1/(1+y^2)) y := by
    intro y
    have ha : HasDerivAt (fun y : ℝ => y) 1 y := hasDerivAt_id y
    have hb : HasDerivAt (fun y : ℝ => y^3) (3*y^2) y := by
      simpa using hasDerivAt_pow 3 y
    have hc : HasDerivAt (fun y : ℝ => y^5) (5*y^4) y := by
      simpa using hasDerivAt_pow 5 y
    have hd : HasDerivAt Real.arctan (1/(1+y^2)) y := Real.hasDerivAt_arctan y
    exact ((ha.sub (hb.div_const 3)).add (hc.div_const 5)).sub hd
  have hmono : Monotone (fun y : ℝ => y - y^3/3 + y^5/5 - Real.arctan y) := by
    apply monotone_of_deriv_nonneg (fun y => (hD y).differentiableAt)
    intro y
    rw [(hD y).deriv]
    have hy : (0:ℝ) < 1 + y^2 := by positivity
    rw [sub_nonneg, div_le_iff₀ hy]
    nlinarith [sq_nonneg (y^3), sq_nonneg y]
  have h := hmono hx
  simp only [Real.arctan_zero] at h
  norm_num at h
  linarith [h]

/-- Degree-7 lower bound on `arctan` for nonnegative arguments. -/
lemma poly7_le_arctan (x : ℝ) (hx : 0 ≤ x) :
    x - x^3/3 + x^5/5 - x^7/7 ≤ Real.arctan x := by
  have hD : ∀ y : ℝ, HasDerivAt (fun y : ℝ => Real.arctan y - (y - y^3/3 + y^5/5 - y^7/7))
      (1/(1+y^2) - (1 - 3*y^2/3 + 5*y^4/5 - 7*y^6/7)) y := by
    intro y
    have ha : HasDerivAt (fun y : ℝ => y) 1 y := hasDerivAt_id y
    have hb : HasDerivAt (fun y : ℝ => y^3) (3*y^2) y := by
      simpa using hasDerivAt_pow 3 y
    have hc : HasDerivAt (fun y : ℝ => y^5) (5*y^4) y := by
      simpa using hasDerivAt_pow 5 y
    have he : HasDerivAt (fun y : ℝ => y^7) (7*y^6) y := by
      simpa using hasDerivAt_pow 7 y
    have hd : HasDerivAt Real.arctan (1/(1+y^2)) y := Real.hasDerivAt_arctan y
    exact hd.sub (((ha.sub (hb.div_const 3)).add (hc.div_const 5)).sub (he.div_const 7))
  have hmono : Monotone (fun y : ℝ => Real.arctan y - (y - y^3/3 + y^5/5 - y^7/7)) := by
    apply monotone_of_deriv_nonneg (fun y => (hD y).differentiableAt)
    intro y
    rw [(hD y).deriv]
    have hy : (0:ℝ) < 1 + y^2 := by positivity
    rw [sub_nonneg, le_div_iff₀ hy]
    nlinarith [sq_nonneg (y^4), sq_nonneg y]
  have h := hmono hx
  simp only [Real.arctan_zero] at h
  norm_num at h
  linarith [h]

/-- `arctan(3/2) = π/4 + arctan(1/5)` (arctangent addition formula). -/
lemma arctan_three_halves : Real.arctan (3/2) = Real.pi/4 + Real.arctan (1/5) := by
  have h := Real.arctan_add (x := 1) (y := (1:ℝ)/5) (by norm_num)
  rw [Real.arctan_one] at h
  rw [show ((1:ℝ) + 1/5)/(1 - 1*(1/5)) = 3/2 by norm_num] at h
  exact h.symm

/-- Rational bounds on `arctan(1/5)` from the Taylor-style bounds. -/
lemma arctan_fifth_bounds :
    (9253:ℝ)/46875 - 1/546875 ≤ Real.arctan (1/5) ∧
      Real.arctan (1/5) ≤ (9253:ℝ)/46875 := by
  constructor
  · have h := poly7_le_arctan (1/5) (by norm_num)
    have he : (1:ℝ)/5 - (1/5)^3/3 + (1/5)^5/5 - (1/5)^7/7 = 9253/46875 - 1/546875 := by
      norm_num
    linarith [he ▸ h]
  · have h := arctan_le_poly5 (1/5) (by norm_num)
    have he : (1:ℝ)/5 - (1/5)^3/3 + (1/5)^5/5 = 9253/46875 := by
      norm_num
    linarith [he ▸ h]

/-- Brewster's angle in degrees lies in `[56.3095, 56.3105)`. -/
lemma theta_brewster_bounds : 56.3095 ≤ theta_brewster ∧ theta_brewster < 56.3105 := by
  have hπ1 := Real.pi_gt_d6
  have hπ2 := Real.pi_lt_d6
  have hπpos := Real.pi_pos
  have hA1 := arctan_fifth_bounds.2
  have hA2 := arctan_fifth_bounds.1
  have hn : n_2 / n_1 = (3:ℝ)/2 := by
    rw [n_1, n_2]
    norm_num
  have hθπ : theta_brewster * Real.pi = 45 * Real.pi + 180 * Real.arctan (1/5) := by
    rw [theta_brewster, degrees, hn, arctan_three_halves]
    field_simp
    ring
  constructor
  · have h1 : 56.3095 * Real.pi ≤ theta_brewster * Real.pi := by
      rw [hθπ]
      linarith
    exact le_of_mul_le_mul_right h1 hπpos
  · have h2 : theta_brewster * Real.pi < 56.3105 * Real.pi := by
      rw [hθπ]
      linarith
    exact lt_of_mul_lt_mul_right h2 hπpos.le

/-- Rounding Brewster's angle to three decimals gives `56.31`. -/
lemma roundTo3_theta_brewster : roundTo3 theta_brewster = 56.31 := by
  obtain ⟨hlo, hhi⟩ := theta_brewster_bounds
  have hr : round (theta_brewster * 1000) = (56310 : ℤ) := by
    rw [round_eq]
    apply Int.floor_eq_iff.mpr
    constructor
    · push_cast
      linarith
    · push_cast
      linarith
  rw [roundTo3, hr]
  norm_num

/-- C8: `theta_brewster` equals `arctan(1.5)` converted to degrees and is
approximately `56.31` (within `0.001`). -/
theorem C8_brewster_angle :
    theta_brewster = Real.arctan 1.5 * (180 / Real.pi) ∧
      |theta_brewster - 56.31| < 0.001 := by
  constructor
  · rw [theta_brewster, degrees, n_1, n_2]
    norm_num
  · obtain ⟨hlo, hhi⟩ := theta_brewster_bounds
    rw [abs_lt]
    constructor <;> linarith

/-- C9: the x-axis tick list equals the multiples of ten with `50` and `60`
removed and the Brewster angle (rounded to three decimals) inserted in order:
`[0, 10, 20, 30, 40, 56.31, 70, 80]`. -/
theorem C9_ticks : ticks_x = [0, 10, 20, 30, 40, 56.31, 70, 80] := by
  have harange : arange_0_90_10 = [0, 10, 20, 30, 40, 50, 60, 70, 80] := by
    simp [arange_0_90_10, show List.range 9 = [0,1,2,3,4,5,6,7,8] from rfl]
    norm_num
  rw [ticks_x, setdiff1d, harange, roundTo3_theta_brewster]
  have hfilter : (([0, 10, 20, 30, 40, 50, 60, 70, 80] ++ [(56.31:ℝ)]).filter
      (fun x => decide (x ∉ ([50, 60] : List ℝ)))) = [0, 10, 20, 30, 40, 70, 80, 56.31] := by
    norm_num [List.filter_cons, List.filter_nil]
  rw [hfilter]
  have hdedup : ([0, 10, 20, 30, 40, 70, 80, 56.31] : List ℝ).dedup =
      [0, 10, 20, 30, 40, 70, 80, 56.31] := by
    apply List.dedup_eq_self.mpr
    norm_num [List.nodup_cons]
  rw [hdedup]
  norm_num [List.insertionSort, List.orderedInsert]

/-! ### The sample grid -/

/-- Every element of `linspace 0 100 100` is `100*i/99` for some `i < 100`. -/
lemma linspace_mem (d : ℝ) (hd : d ∈ linspace 0 100 100) :
    ∃ i : ℕ, i < 100 ∧ d = 100 * (i:ℝ) / 99 := by
  rw [linspace] at hd
  obtain ⟨i, hi, hde⟩ := List.mem_map.mp hd
  refine ⟨i, List.mem_range.mp hi, ?_⟩
  rw [← hde]
  push_cast
  ring

/-- C6: the sample grid has exactly 100 points, spans 0 to 100 degrees
inclusive, is strictly ascending, each point is `100*i/99` degrees converted
to radians, and the four derived sequences all have length 100 with their
`i`-th element equal to the corresponding evaluator applied to the `i`-th
grid angle. -/
theorem C6_sample_grid :
    theta_range.length = 100 ∧
    (linspace 0 100 100).head? = some 0 ∧
    (linspace 0 100 100).getLast? = some 100 ∧
    List.Pairwise (· < ·) (linspace 0 100 100) ∧
    (∀ i : ℕ, i < 100 → theta_range[i]? = some (radians (100 * (i : ℝ) / 99))) ∧
    reflection_coefficient.length = 100 ∧
    transmission_coefficient.length = 100 ∧
    reflectance.length = 100 ∧
    transmittance.length = 100 ∧
    (∀ i : ℕ, reflection_coefficient[i]? =
      (theta_range[i]?).map (fun theta => (reflectionAndTransmissionCoefficient theta).1)) ∧
    (∀ i : ℕ, transmission_coefficient[i]? =
      (theta_range[i]?).map (fun theta => (reflectionAndTransmissionCoefficient theta).2)) ∧
    (∀ i : ℕ, reflectance[i]? =
      (theta_range[i]?).map (fun theta => (reflectanceAndTransmittance theta).1)) ∧
    (∀ i : ℕ, transmittance[i]? =
      (theta_range[i]?).map (fun theta => (reflectanceAndTransmittance theta).2)) := by
  have hlen : theta_range.length = 100 := by
    rw [theta_range, List.length_map, linspace, List.length_map, List.length_range]
  refine ⟨hlen, ?_, ?_, ?_, ?_, ?_, ?_, ?_, ?_, ?_, ?_, ?_, ?_⟩
  · rw [linspace, List.head?_eq_getElem?, List.getElem?_map,
      show (List.range 100)[0]? = some 0 by simp [List.getElem?_range]]
    simp only [Option.map_some']
    norm_num
  · rw [linspace, List.getLast?_eq_getElem?, List.length_map, List.length_range,
      List.getElem?_map,
      show (List.range 100)[100-1]? = some 99 by simp [List.getElem?_range]]
    simp only [Option.map_some']
    norm_num
  · rw [linspace, List.pairwise_map]
    apply List.Pairwise.imp ?_ (List.pairwise_lt_range 100)
    intro a b hab
    have hc : (a:ℝ) < b := by exact_mod_cast hab
    norm_num
    linarith
  · intro i h
    rw [theta_range, List.getElem?_map, linspace, List.getElem?_map,
      show (List.range 100)[i]? = some i by simp [List.getElem?_range, h]]
    simp only [Option.map_some']
    have harg : (0:ℝ) + (100 - 0) * i / (((100:ℕ):ℝ) - 1) = 100 * (i:ℝ) / 99 := by
      push_cast
      norm_num
    rw [harg]
  · rw [reflection_coefficient, List.length_map, hlen]
  · rw [transmission_coefficient, List.length_map, hlen]
  · rw [reflectance, List.length_map, hlen]
  · rw [transmittance, List.length_map, hlen]
  · intro i
    rw [reflection_coefficient, List.getElem?_map]
  · intro i
    rw [transmission_coefficient, List.getElem?_map]
  · intro i
    rw [reflectance, List.getElem?_map]
  · intro i
    rw [transmittance, List.getElem?_map]

/-- Witness for C6 at index `0`. -/
theorem C6_witness :
    (0:ℕ) < 100 ∧ theta_range[(0:ℕ)]? = some (radians (100 * ((0:ℕ) : ℝ) / 99)) ∧
    reflection_coefficient[(0:ℕ)]? =
      (theta_range[(0:ℕ)]?).map (fun theta => (reflectionAndTransmissionCoefficient theta).1) := by
  have h : (0:ℕ) < 100 := by norm_num
  exact ⟨h, C6_sample_grid.2.2.2.2.1 0 h, C6_sample_grid.2.2.2.2.2.2.2.2.2.1 0⟩

/-! ### Totality over the grid -/

/-- The radicand never drops below `5/9` for any real angle. -/
lemma radicand_ge (theta : ℝ) : 5/9 ≤ radicand theta := by
  have hs1 := Real.neg_one_le_sin theta
  have hs2 := Real.sin_le_one theta
  simp only [radicand, n_1, n_2]
  nlinarith [mul_nonneg (by linarith : (0:ℝ) ≤ 1 - Real.sin theta)
    (by linarith : (0:ℝ) ≤ 1 + Real.sin theta)]

/-- The radicand in closed form: `1 - (4/9)·sin²`. -/
lemma rad_eq (theta : ℝ) : radicand theta = 1 - 4/9 * (Real.sin theta)^2 := by
  simp only [radicand, n_1, n_2]
  ring_nf

/-- Below 90 degrees the cosine is positive and `alpha + beta ≥ 3/2 > 0`. -/
lemma below_ninety (theta : ℝ) (h0 : 0 ≤ theta) (h1 : theta < Real.pi/2) :
    0 < Real.cos theta ∧ 0 < (alphaAndBeta theta).1 + (alphaAndBeta theta).2 := by
  have hπ := Real.pi_pos
  have hcos : 0 < Real.cos theta := Real.cos_pos_of_mem_Ioo ⟨by linarith, h1⟩
  have hα : 0 ≤ (alphaAndBeta theta).1 := div_nonneg (Real.sqrt_nonneg _) hcos.le
  refine ⟨hcos, ?_⟩
  rw [beta_val]
  linarith

/-- Between 90 and 100 degrees the cosine is negative and `alpha < -3/2`, so
`alpha + beta < 0`: in particular neither divisor vanishes there. -/
lemma above_ninety (theta : ℝ) (h1 : Real.pi/2 < theta) (h2 : theta ≤ 5*Real.pi/9) :
    Real.cos theta < 0 ∧ (alphaAndBeta theta).1 + (alphaAndBeta theta).2 < 0 := by
  have hπ := Real.pi_pos
  have hcos : Real.cos theta < 0 := Real.cos_neg_of_pi_div_two_lt_of_lt h1 (by linarith)
  have hsin : (0.9846 : ℝ) ≤ Real.sin theta := by
    have h3 : Real.sin theta = Real.cos (theta - Real.pi/2) :=
      (Real.cos_sub_pi_div_two theta).symm
    have h4 : Real.cos (Real.pi/18) ≤ Real.cos (theta - Real.pi/2) :=
      Real.cos_le_cos_of_nonneg_of_le_pi (by linarith) (by linarith) (by linarith)
    have h5 : 1 - (Real.pi/18)^2/2 ≤ Real.cos (Real.pi/18) :=
      Real.one_sub_sq_div_two_le_cos
    have h6 : (0.9846:ℝ) ≤ 1 - (Real.pi/18)^2/2 := by
      nlinarith [Real.pi_lt_d2, Real.pi_gt_d2]
    rw [h3]
    linarith
  have hpyth := Real.sin_sq_add_cos_sq theta
  have h94 : (9/4) * (Real.cos theta)^2 < radicand theta := by
    rw [rad_eq]
    nlinarith [hsin, hpyth]
  have hsq : -(3/2) * Real.cos theta < Real.sqrt (radicand theta) := by
    apply (Real.lt_sqrt (by nlinarith : (0:ℝ) ≤ -(3/2) * Real.cos theta)).mpr
    nlinarith [h94]
  have hαlt : (alphaAndBeta theta).1 < -(3/2) := by
    show Real.sqrt (radicand theta) / Real.cos theta < -(3/2)
    rw [div_lt_iff_of_neg hcos]
    exact hsq
  refine ⟨hcos, ?_⟩
  rw [beta_val]
  linarith

/-- C10: no grid angle is exactly 90 degrees, the radicand is at least
`5/9 > 0` for every real angle, and at every sampled angle the cosine and
`alpha + beta` are nonzero, so every element of the four derived sequences is
a well-defined real number: no division by zero and no square root of a
negative number occurs anywhere in the run, including the samples
beyond 90 degrees. -/
theorem C10_grid_total :
    (∀ d ∈ linspace 0 100 100, d ≠ 90) ∧
    (∀ theta : ℝ, 5/9 ≤ radicand theta) ∧
    (∀ theta ∈ theta_range, Real.cos theta ≠ 0 ∧ 0 < radicand theta ∧
      (alphaAndBeta theta).1 + (alphaAndBeta theta).2 ≠ 0) := by
  refine ⟨?_, radicand_ge, ?_⟩
  · intro d hd h90
    obtain ⟨i, hi, rfl⟩ := linspace_mem d hd
    have hcast : (100:ℝ) * i = 8910 := by linarith
    have hnat : (100 * i : ℕ) = 8910 := by exact_mod_cast hcast
    omega
  · intro theta htheta
    rw [theta_range] at htheta
    obtain ⟨d, hd, rfl⟩ := List.mem_map.mp htheta
    obtain ⟨i, hi, rfl⟩ := linspace_mem d hd
    have hrad : 0 < radicand (radians (100 * (i:ℝ) / 99)) :=
      lt_of_lt_of_le (by norm_num) (radicand_ge _)
    by_cases hc : i ≤ 89
    · have hd1 : (100:ℝ) * i / 99 < 90 := by
        have : (i:ℝ) ≤ 89 := by exact_mod_cast hc
        linarith
      have hθ0 : 0 ≤ radians (100 * (i:ℝ) / 99) := by
        rw [radians]
        positivity
      have hθ1 : radians (100 * (i:ℝ) / 99) < Real.pi/2 := by
        rw [radians]
        nlinarith [Real.pi_pos]
      obtain ⟨hcos, hsum⟩ := below_ninety _ hθ0 hθ1
      exact ⟨hcos.ne', hrad, hsum.ne'⟩
    · push_neg at hc
      have hi99 : i ≤ 99 := by omega
      have hd1 : (9000:ℝ)/99 ≤ 100 * (i:ℝ) / 99 := by
        have : (90:ℝ) ≤ i := by exact_mod_cast hc
        linarith
      have hd2 : (100:ℝ) * i / 99 ≤ 100 := by
        have : (i:ℝ) ≤ 99 := by exact_mod_cast hi99
        linarith
      have hθ1 : Real.pi/2 < radians (100 * (i:ℝ) / 99) := by
        rw [radians]
        nlinarith [Real.pi_pos]
      have hθ2 : radians (100 * (i:ℝ) / 99) ≤ 5*Real.pi/9 := by
        rw [radians]
        nlinarith [Real.pi_pos]
      obtain ⟨hcos, hsum⟩ := above_ninety _ hθ1 hθ2
      exact ⟨hcos.ne, hrad, hsum.ne⟩

/-- Witness for C10 at the first grid point. -/
theorem C10_witness :
    (0:ℝ) ≠ 90 ∧ 5/9 ≤ radicand 0 ∧ Real.cos (radians 0) ≠ 0 := by
  have hm1 : (0:ℝ) ∈ linspace 0 100 100 := by
    rw [linspace]
    exact List.mem_map.mpr ⟨0, List.mem_range.mpr (by norm_num), by norm_num⟩
  have hm2 : radians 0 ∈ theta_range := by
    rw [theta_range]
    exact List.mem_map.mpr ⟨0, hm1, rfl⟩
  exact ⟨C10_grid_total.1 0 hm1, C10_grid_total.2.1 0,
    (C10_grid_total.2.2 (radians 0) hm2).1⟩
